import Mathlib

/-!
Verification development for the GoLangProxy reverse proxy.

The Go sources are shallowly embedded: each definition below mirrors one
function (or one inline block) of the repository.  Machine strings are
`String`/`List Char`; Go maps are association lists (a well-formed map has
pairwise-distinct keys); wall-clock instants and durations are integers
counted in nanoseconds, exactly as Go's `time.Time`/`time.Duration`; the
stateful request handler is a pure function from its inputs (configuration,
request, cache snapshot, rate-limiter state, current time) to an outcome
plus the successor limiter state and the ordered trace of the phases it
executed.
-/

set_option autoImplicit false
set_option maxRecDepth 8000

namespace GoLangProxy

/-! ### Go standard-library string helpers used by the proxy -/

/-- `strings.Split(s, sep)` for a one-character separator, on character
lists.  Splitting the empty string yields one empty field, as in Go. -/
def goSplit (sep : Char) : List Char → List (List Char)
  | [] => [[]]
  | c :: cs =>
    if c = sep then [] :: goSplit sep cs
    else
      match goSplit sep cs with
      | [] => [[c]]
      | p :: ps => (c :: p) :: ps

/-- `unicode.IsSpace`: Go's `White_Space` table by code point — the
Latin-1 white space `'\t'`, `'\n'`, `'\v'`, `'\f'`, `'\r'`, `' '`,
U+0085, U+00A0, and the Unicode space separators U+1680, U+2000–U+200A,
U+2028, U+2029, U+202F, U+205F and U+3000. -/
def isGoSpace (c : Char) : Bool :=
  let n := c.toNat
  n = 9 || n = 10 || n = 11 || n = 12 || n = 13 || n = 32 ||
  n = 0x85 || n = 0xA0 || n = 0x1680 ||
  (0x2000 ≤ n && n ≤ 0x200A) ||
  n = 0x2028 || n = 0x2029 || n = 0x202F || n = 0x205F || n = 0x3000

/-- `strings.TrimSpace` on character lists. -/
def goTrimSpace (l : List Char) : List Char :=
  ((l.dropWhile isGoSpace).reverse.dropWhile isGoSpace).reverse

/-- Numeric value of a list of decimal digits (most significant first). -/
def digitsVal (l : List Char) : Nat :=
  l.foldl (fun n c => n * 10 + (c.toNat - 48)) 0

/-- The largest `int64`, `2^63 - 1`: `strconv.Atoi` fails with `ErrRange`
beyond it. -/
def maxInt64 : Int := 9223372036854775807

/-- Reduction of an integer into the signed 64-bit range
`[-2^63, 2^63 - 1]`: Go's `int64` arithmetic (and hence `time.Duration`
multiplication) wraps around two's complement. -/
def wrap64 (x : Int) : Int :=
  (x + 9223372036854775808) % 18446744073709551616 - 9223372036854775808

/-- `strconv.Atoi`: an optional sign followed by at least one decimal
digit, failing (`none`) on anything else and — with `ErrRange` — on
values outside the 64-bit signed range. -/
def atoi (l : List Char) : Option Int :=
  match l with
  | [] => none
  | c :: rest =>
    if c = '+' then
      if rest ≠ [] ∧ rest.all Char.isDigit ∧ (digitsVal rest : Int) ≤ maxInt64 then
        some (digitsVal rest)
      else none
    else if c = '-' then
      if rest ≠ [] ∧ rest.all Char.isDigit ∧ (digitsVal rest : Int) ≤ 9223372036854775808 then
        some (-(digitsVal rest : Int))
      else none
    else if (c :: rest).all Char.isDigit ∧ (digitsVal (c :: rest) : Int) ≤ maxInt64 then
      some (digitsVal (c :: rest))
    else none

/-- `strings.HasPrefix` on character lists. -/
def goHasPfx (pfx l : List Char) : Bool := pfx.isPrefixOf l

/-- First index of a character, if present. -/
def firstIdxOf (c : Char) : List Char → Option Nat
  | [] => none
  | x :: xs => if x = c then some 0 else (firstIdxOf c xs).map (· + 1)

/-- Last index of a character, if present. -/
def lastIdxOf (c : Char) (l : List Char) : Option Nat :=
  (firstIdxOf c l.reverse).map (fun i => l.length - 1 - i)

/-- One nanosecond-count per second: `time.Second`. -/
def nsPerSecond : Int := 1000000000

/-! ### Configuration (`Config` in `config.go`) -/

/-- The `Config` structure loaded from `config.yaml`.  Go maps are
embedded as association lists; a well-formed parse has no duplicate keys. -/
structure Config where
  ListenHTTP : String
  ListenHTTPS : String
  CertDir : String
  CertFile : String
  KeyFile : String
  Routes : List (String × String)
  TrustTarget : List (String × Bool)
  NoHTTPSRedirect : List (String × Bool)
  deriving DecidableEq, Repr

/-- A Go map read `m[k]` for a `map[string]bool`: the zero value `false`
when the key is absent. -/
def lookupD (m : List (String × Bool)) (k : String) : Bool :=
  (List.lookup k m).getD false

/-- Keys of an association list are pairwise distinct (Go maps). -/
def NodupKeys {V : Type} (m : List (String × V)) : Prop :=
  (m.map Prod.fst).Nodup

/-- A Go map assignment `m[k] = v`: replace the binding if the key is
present, append it otherwise. -/
def mapSet {V : Type} (m : List (String × V)) (k : String) (v : V) :
    List (String × V) :=
  if (List.lookup k m).isSome then
    m.map (fun p => if p.1 = k then (k, v) else p)
  else m ++ [(k, v)]

/-- A Go map deletion `delete(m, k)`. -/
def mapErase {V : Type} (m : List (String × V)) (k : String) :
    List (String × V) :=
  m.filter (fun p => p.1 != k)

/-- `generateDefaultConfig` from `config.go`. -/
def generateDefaultConfig : Config :=
  { ListenHTTP := ":80"
    ListenHTTPS := ":443"
    CertDir := "./certificate"
    CertFile := "certificate.pem"
    KeyFile := "key.pem"
    Routes := [("*", "https://127.0.0.1:3000"),
               ("main.example.com", "https://10.100.111.254:4444")]
    TrustTarget := [("*", true), ("main.example.com", true)]
    NoHTTPSRedirect := [("*", false), ("main.example.com", false)] }

/-! ### Route resolution (inline in `handler`, `proxy.go` lines 264-276) -/

/-- The host-resolution block of `handler`: look the host up in `Routes`
and read both flag maps at the host key (Go zero value `false` when
absent); if the host has no route, redo all three reads at the wildcard
key `*`; if the wildcard route is also absent, fail (404). -/
def resolveRoute (cfg : Config) (host : String) : Option (String × Bool × Bool) :=
  match List.lookup host cfg.Routes with
  | some target => some (target, lookupD cfg.TrustTarget host, lookupD cfg.NoHTTPSRedirect host)
  | none =>
    match List.lookup "*" cfg.Routes with
    | some target => some (target, lookupD cfg.TrustTarget "*", lookupD cfg.NoHTTPSRedirect "*")
    | none => none

/-- `getConfigBool` from `golangproxy/main.go`: a host-specific boolean
with an independent per-map fallback to the wildcard entry (itself read
with the Go zero value when absent). -/
def getConfigBool (m : List (String × Bool)) (host : String) : Bool :=
  match List.lookup host m with
  | some v => v
  | none => lookupD m "*"

/-! ### Rate limiter (`golang.org/x/time/rate`, used via `getLimiter`) -/

/-- The per-IP refill rate: `rate.Limit(10)` tokens per second. -/
def rateLimit : Int := 10

/-- The per-IP burst capacity: `rateBurst = 20` tokens. -/
def rateBurst : Int := 20

/-- A `rate.Limiter`: the token count (in units of 10⁻⁹ token, so that a
refill of `rateLimit` tokens per second is exactly `rateLimit` units per
nanosecond) and the instant (nanoseconds) of the last state change. -/
structure Limiter where
  tokensNano : Int
  last : Int
  deriving DecidableEq, Repr

/-- `rate.NewLimiter(rateLimit, rateBurst)`: the first `advance` from the
zero time fills the bucket, so a fresh limiter holds a full burst. -/
def newLimiter : Limiter := { tokensNano := rateBurst * nsPerSecond, last := 0 }

/-- `Limiter.Allow()` at instant `now`: clamp `last` to `now` if time ran
backwards, refill by elapsed-time × rate capped at the burst, then consume
one token when a full token is available, otherwise leave the limiter
unchanged (as `reserveN` does when the reservation fails). -/
def Limiter.allow (l : Limiter) (now : Int) : Bool × Limiter :=
  let last := if now < l.last then now else l.last
  let t := l.tokensNano + (now - last) * rateLimit
  let t := if t > rateBurst * nsPerSecond then rateBurst * nsPerSecond else t
  if nsPerSecond ≤ t then (true, { tokensNano := t - nsPerSecond, last := now })
  else (false, l)

/-- Run a sequence of `Allow` calls at the given instants, collecting the
per-call verdicts. -/
def allowRun (l : Limiter) (ts : List Int) : List Bool × Limiter :=
  ts.foldl (fun acc t =>
    let r := acc.2.allow t
    (acc.1 ++ [r.1], r.2)) ([], l)

/-! ### Cache-control parsing and cache eligibility (`proxy.go`) -/

/-- The literal directive head `"max-age="`. -/
def maxAgePfx : List Char := "max-age=".data

/-- The loop body of `parseCacheControl`: return
`time.Duration(age) * time.Second` — the parsed seconds times `10^9`,
wrapped to `int64` as Go's duration multiplication is — for the first
comma-field that literally starts with `"max-age="` (no leading
white-space trimmed before the prefix test) and whose trimmed remainder
parses; skip fields whose remainder does not parse. -/
def findMaxAge : List (List Char) → Int
  | [] => 0
  | p :: ps =>
    if goHasPfx maxAgePfx p then
      match atoi (goTrimSpace (p.drop 8)) with
      | some age => wrap64 (age * nsPerSecond)
      | none => findMaxAge ps
    else findMaxAge ps

/-- `parseCacheControl` from `proxy.go`: the extracted `max-age` as a
`time.Duration` (nanoseconds), or `0` when the header is empty or carries
no parsable `max-age` field. -/
def parseCacheControl (header : List Char) : Int :=
  if header = [] then 0 else findMaxAge (goSplit ',' header)

/-- `defaultCacheTTL = 5 * time.Minute`, in nanoseconds. -/
def defaultCacheTTL : Int := 300 * nsPerSecond

/-- The TTL stored by `ModifyResponse`: `parseCacheControl`, with the
default substituted when it yields `0`. -/
def cacheTTL (header : List Char) : Int :=
  let d := parseCacheControl header
  if d = 0 then defaultCacheTTL else d

/-- `shouldCache` from `proxy.go`: GET, status 200, and a textual, image,
JavaScript or JSON content type. -/
def shouldCache (method : String) (statusCode : Nat) (contentType : String) : Bool :=
  if method != "GET" || statusCode != 200 then false
  else
    goHasPfx "text/".data contentType.data ||
    goHasPfx "image/".data contentType.data ||
    goHasPfx "application/javascript".data contentType.data ||
    goHasPfx "application/json".data contentType.data

/-! ### Response cache entries (`cachedResponse` in `proxy.go`) -/

/-- A stored cache entry.  `cachedAt` is an instant and `cacheDuration` a
TTL, both in nanoseconds. -/
structure CachedResponse where
  body : List Nat
  headers : List (String × String)
  statusCode : Nat
  cachedAt : Int
  cacheDuration : Int
  etag : String
  deriving DecidableEq, Repr

/-- `http.Header.Get`: the value, or `""` when the header is absent.  The
header names used by this repository are already in canonical MIME form,
so exact key lookup is faithful. -/
def headerGet (h : List (String × String)) (k : String) : String :=
  (List.lookup k h).getD ""

/-- `http.Header.Set`: replace any previous value of the key. -/
def headerSet (h : List (String × String)) (k v : String) :
    List (String × String) :=
  (h.filter (fun p => p.1 != k)) ++ [(k, v)]

/-- The data of a backend response as `ModifyResponse` reads it. -/
structure BackendResp where
  method : String
  urlString : String
  statusCode : Nat
  headers : List (String × String)
  body : List Nat
  deriving DecidableEq, Repr

/-- The cache-population block of `ModifyResponse` (`proxy.go` lines
150-181): on a cache-eligible response, store body, headers, status, the
insertion instant, the TTL from `cacheTTL`, and an ETag — the response's
own `ETag` header when non-empty, else `generateETag` of the body.
`genETag` stands for `generateETag` (a quoted MD5 digest from `crypto/md5`,
passed in as the embedding of that standard-library hash). -/
def modifyResponseCache (genETag : List Nat → String)
    (cache : List (String × CachedResponse)) (resp : BackendResp) (now : Int) :
    List (String × CachedResponse) :=
  if shouldCache resp.method resp.statusCode (headerGet resp.headers "Content-Type") then
    let etag := if headerGet resp.headers "ETag" != "" then headerGet resp.headers "ETag"
                else genETag resp.body
    mapSet cache resp.urlString
      { body := resp.body
        headers := resp.headers
        statusCode := resp.statusCode
        cachedAt := now
        cacheDuration := cacheTTL (headerGet resp.headers "Cache-Control").data
        etag := etag }
  else cache

/-! ### The request handler (`handler` in `proxy.go` lines 250-370) -/

/-- The observable phases of one `handler` execution, in source order. -/
inductive Step where
  | rate
  | resolve
  | redirect
  | cacheCheck
  | dispatch
  deriving DecidableEq, Repr

/-- An inbound request as `handler` reads it:  `host` is `r.Host`,
`isTLS` is `r.TLS != nil`, `requestURI` is `r.RequestURI`, `urlString`
is `r.URL.String()` (the cache key), `ifNoneMatch` and `upgrade` are the
respective header reads (`""` when absent). -/
structure Request where
  host : String
  isTLS : Bool
  requestURI : String
  urlString : String
  ifNoneMatch : String
  upgrade : String
  deriving DecidableEq, Repr

/-- What one `handler` run writes back to the client (or does instead). -/
inductive Outcome where
  /-- `http.Error(w, "Too Many Requests", 429)` -/
  | tooManyRequests
  /-- `http.Error(w, "Host not configured", 404)` -/
  | notFound
  /-- the run aborts in `target[:5]` with a slice-out-of-range runtime
  panic, before anything is written to the client -/
  | panicSliceOutOfRange
  /-- `http.Redirect(w, r, url, 301)` -/
  | redirect (url : String)
  /-- `w.WriteHeader(304)` with no body -/
  | notModified
  /-- replay of a stored cache entry: status, headers and body verbatim -/
  | cachedReply (status : Nat) (headers : List (String × String)) (body : List Nat)
  /-- the request is forwarded to the backend (reverse proxy or the
  WebSocket tunnel) for the resolved target, with the resolved
  skip-verification flag -/
  | dispatch (target : String) (skipVerify : Bool)
  deriving DecidableEq, Repr

/-- Whether an outcome contacts the backend. -/
def Outcome.isDispatch : Outcome → Bool
  | .dispatch _ _ => true
  | _ => false

/-- One execution of `handler` on a request, given the configuration, the
current cache contents, the client's limiter state and the current time
(nanoseconds).  Returns the ordered phase trace, the outcome, and the
successor limiter.  The phases run in the source's order: rate limiting
(lines 255-262), host resolution (264-276), the HTTP→HTTPS redirect check
containing the unguarded `target[:5]` slice (278-285), the cache lookup
(287-305), and finally dispatch to the reverse proxy or WebSocket tunnel. -/
def handler (cfg : Config) (req : Request) (cache : List (String × CachedResponse))
    (lim : Limiter) (now : Int) : List Step × Outcome × Limiter :=
  let a := lim.allow now
  if !a.1 then ([.rate], .tooManyRequests, a.2) else
  match resolveRoute cfg req.host with
  | none => ([.rate, .resolve], .notFound, a.2)
  | some (target, skipVerify, noHTTPSRedirect) =>
    -- Go: `isHTTPS := target[:5] == "https"` — panics when len(target) < 5
    if target.length < 5 then
      ([.rate, .resolve, .redirect], .panicSliceOutOfRange, a.2)
    else
      let isHTTPS := (target.data.take 5 == "https".data)
      if !req.isTLS && isHTTPS && !noHTTPSRedirect then
        ([.rate, .resolve, .redirect],
         .redirect ("https://" ++ req.host ++ req.requestURI), a.2)
      else
        match List.lookup req.urlString cache with
        | some c =>
          if now - c.cachedAt < c.cacheDuration then
            if req.ifNoneMatch ≠ "" && req.ifNoneMatch == c.etag then
              ([.rate, .resolve, .redirect, .cacheCheck], .notModified, a.2)
            else
              ([.rate, .resolve, .redirect, .cacheCheck],
               .cachedReply c.statusCode c.headers c.body, a.2)
          else
            ([.rate, .resolve, .redirect, .cacheCheck, .dispatch],
             .dispatch target skipVerify, a.2)
        | none =>
          ([.rate, .resolve, .redirect, .cacheCheck, .dispatch],
           .dispatch target skipVerify, a.2)

/-! ### IP-literal detection (`isIPTarget` in `golangproxy/main.go`) -/

/-- `net.SplitHostPort`: `none` models an error.  Faithful on unbracketed
inputs (no colon → "missing port"; a colon in the host part → "too many
colons"; stray brackets rejected); bracketed `[host]:port` accepted when
the closing bracket directly precedes the final colon. -/
def splitHostPort (s : List Char) : Option (List Char × List Char) :=
  match lastIdxOf ':' s with
  | none => none
  | some i =>
    if s.head? = some '[' then
      match firstIdxOf ']' s with
      | none => none
      | some e =>
        if e + 1 = s.length then none
        else if e + 1 = i then
          if ('[' ∈ s.drop 1) || (']' ∈ s.drop (e + 1)) then none
          else some ((s.take e).drop 1, s.drop (i + 1))
        else none
    else
      if ':' ∈ s.take i then none
      else if '[' ∈ s || ']' ∈ s then none
      else some (s.take i, s.drop (i + 1))

/-- One decimal field of a dotted-quad IPv4 address, as `net.ParseIP`
accepts it: 1–3 digits, value at most 255, no leading zero. -/
def isV4Field (f : List Char) : Bool :=
  f ≠ [] && f.all Char.isDigit && f.length ≤ 3 &&
  (f.length = 1 || f.head? ≠ some '0') && digitsVal f ≤ 255

/-- The IPv4 branch of `net.ParseIP`: exactly four valid decimal fields. -/
def isIPv4 (s : List Char) : Bool :=
  match goSplit '.' s with
  | [a, b, c, d] => isV4Field a && isV4Field b && isV4Field c && isV4Field d
  | _ => false

/-- One 16-bit group of an IPv6 address: 1–4 hexadecimal digits. -/
def isHexGroup (g : List Char) : Bool :=
  g ≠ [] && g.length ≤ 4 &&
  g.all (fun c => c.isDigit || ('a' ≤ c && c ≤ 'f') || ('A' ≤ c && c ≤ 'F'))

/-- Split at the first `"::"`, when present. -/
def splitDC : List Char → Option (List Char × List Char)
  | ':' :: ':' :: rest => some ([], rest)
  | c :: rest => (splitDC rest).map (fun p => (c :: p.1, p.2))
  | [] => none

/-- Count the 16-bit groups of a colon-free-of-`"::"` piece: each field a
hex group, except that the final field may be a dotted-quad IPv4 address
(two groups) when `v4Tail` allows it.  `none` models a parse error. -/
def v6Groups (v4Tail : Bool) : List (List Char) → Option Nat
  | [] => some 0
  | [g] =>
    if isHexGroup g then some 1
    else if v4Tail && isIPv4 g then some 2
    else none
  | g :: gs => if isHexGroup g then (v6Groups v4Tail gs).map (· + 1) else none

/-- The IPv6 branch of `net.ParseIP`, at the grammar level: without `"::"`
exactly eight groups; with a single `"::"` at most seven groups in total,
the zero compression standing for the rest.  An IPv4 tail is allowed only
in the final position. -/
def isIPv6 (s : List Char) : Bool :=
  match splitDC s with
  | none =>
    match v6Groups true (goSplit ':' s) with
    | some 8 => true
    | _ => false
  | some (l, r) =>
    if (splitDC r).isSome then false
    else
      let lg := if l = [] then some 0 else v6Groups false (goSplit ':' l)
      let rg := if r = [] then some 0 else v6Groups true (goSplit ':' r)
      match lg, rg with
      | some a, some b => decide (a + b ≤ 7)
      | _, _ => false

/-- `net.ParseIP(s) != nil`: the first `'.'` or `':'` selects the IPv4 or
IPv6 parser; a string with neither is not an address. -/
def goParseIPOk (s : List Char) : Bool :=
  match s.find? (fun c => c == '.' || c == ':') with
  | some c => if c = '.' then isIPv4 s else isIPv6 s
  | none => false

/-- `isIPTarget` from `golangproxy/main.go`: strip an optional port with
`net.SplitHostPort` (falling back to the whole string on error) and test
the remainder with `net.ParseIP`. -/
def isIPTarget (host : String) : Bool :=
  let hostname := match splitHostPort host.data with
    | some p => p.1
    | none => host.data
  goParseIPOk hostname

/-! ### The outbound-request rewrite (`CreateRoute`'s `Director` override,
`golangproxy/main.go` lines 417-435) -/

/-- A parsed target `url.URL`: scheme plus `Host` (which keeps the port). -/
structure URL where
  scheme : String
  host : String
  deriving DecidableEq, Repr

/-- `url.Hostname()`: drop a trailing `:port`; for a bracketed IPv6
literal, the text inside the brackets. -/
def URL.hostname (u : URL) : String :=
  let l := u.host.data
  match firstIdxOf ':' l with
  | none => u.host
  | some colon =>
    match firstIdxOf ']' l with
    | some i =>
      let h := l.take i
      ⟨if h.head? = some '[' then h.drop 1 else h⟩
    | none => ⟨l.take colon⟩

/-- The outbound request state the `Director` override manipulates. -/
structure ProxyRequest where
  host : String
  remoteAddr : String
  headers : List (String × String)
  deriving DecidableEq, Repr

/-- The `Director` override installed by `CreateRoute`: after the default
single-host director has set the outbound URL, keep the client's `Host`
when the target's hostname is an IP literal and rewrite it to the target's
`Host` otherwise; then set the three `X-Forwarded-*` headers (note
`X-Forwarded-Host` reads the possibly-rewritten `req.Host`), and default
an empty `User-Agent`. -/
def createRouteDirector (u : URL) (req : ProxyRequest) : ProxyRequest :=
  let req := if isIPTarget u.hostname then req else { req with host := u.host }
  let h := headerSet req.headers "X-Forwarded-For" req.remoteAddr
  let h := headerSet h "X-Forwarded-Host" req.host
  let h := headerSet h "X-Forwarded-Proto" u.scheme
  let h := if headerGet h "User-Agent" == "" then headerSet h "User-Agent" "GoLangProxy" else h
  { req with headers := h }

/-! ### Certificate loading (`loadCertificate` in `certificate.go`) -/

/-- An in-memory `tls.Certificate`, carried as the PEM bytes it was
parsed from. -/
structure TLSCert where
  certPEM : List Nat
  keyPEM : List Nat
  deriving DecidableEq, Repr

/-- The readable state of the certificate and key files; `none` models an
`os.ReadFile` error. -/
structure CertFS where
  certFile : Option (List Nat)
  keyFile : Option (List Nat)
  deriving DecidableEq, Repr

/-- The errors `loadCertificate` wraps and returns. -/
inductive CertError where
  | unreadableCert
  | unreadableKey
  | malformed
  deriving DecidableEq, Repr

/-- `loadCertificate`: read both files, parse them with
`tls.X509KeyPair` (embedded as the `parse` argument, `none` modelling a
parse error), and only then — under the write lock, modelled by the single
atomic state update — replace the stored certificate.  Every failure
returns an error and leaves the stored certificate untouched. -/
def loadCertificate (parse : List Nat → List Nat → Option TLSCert)
    (fs : CertFS) (stored : Option TLSCert) :
    Except CertError Unit × Option TLSCert :=
  match fs.certFile with
  | none => (.error .unreadableCert, stored)
  | some certBytes =>
    match fs.keyFile with
    | none => (.error .unreadableKey, stored)
    | some keyBytes =>
      match parse certBytes keyBytes with
      | none => (.error .malformed, stored)
      | some c => (.ok (), some c)

/-! ### The certificate watcher tick (`monitorCertificates`) -/

/-- The reload condition of one `monitorCertificates` tick: the loop keeps
a single `lastModTime` (set to the certificate file's modification time
after a successful load) and reloads when the certificate's or the key's
modification time differs from it. -/
def certTickReloads (lastModTime certMod keyMod : Int) : Bool :=
  certMod != lastModTime || keyMod != lastModTime

/-- One tick of `monitorCertificates`, given the two files' modification
times and whether `loadCertificate` would succeed: returns whether a
reload was attempted and the successor `lastModTime` (updated to the
certificate's modification time only on a successful load). -/
def certTick (lastModTime certMod keyMod : Int) (loadOk : Bool) : Bool × Int :=
  if certTickReloads lastModTime certMod keyMod then
    (true, if loadOk then certMod else lastModTime)
  else (false, lastModTime)

/-! ### The configuration reload diff (`monitorConfig` in `config.go`) -/

/-- The refresh-log notifications the diff-apply block of `monitorConfig`
can emit (the unconditional "Config reloaded successfully" line is not a
per-item notification and is not an event here). -/
inductive ConfigEvent where
  | updatedListenHTTP (v : String)
  | updatedListenHTTPS (v : String)
  | certPathsUpdated
  | updatedRoute (k v : String)
  | removedRoute (k : String)
  | updatedTrustTarget (k : String) (v : Bool)
  | removedTrustTarget (k : String)
  | updatedNoHTTPSRedirect (k : String) (v : Bool)
  | removedNoHTTPSRedirect (k : String)
  deriving DecidableEq, Repr

/-- The body of the per-map update loop: overwrite and log when the key
is absent or bound to a different value. -/
def updStep {V : Type} [DecidableEq V] (ev : String → V → ConfigEvent)
    (acc : List (String × V) × List ConfigEvent) (kv : String × V) :
    List (String × V) × List ConfigEvent :=
  match List.lookup kv.1 acc.1 with
  | some oldV =>
    if oldV = kv.2 then acc
    else (mapSet acc.1 kv.1 kv.2, acc.2 ++ [ev kv.1 kv.2])
  | none => (mapSet acc.1 kv.1 kv.2, acc.2 ++ [ev kv.1 kv.2])

/-- The per-map update loop over all new bindings. -/
def mapApplyUpdates {V : Type} [DecidableEq V] (ev : String → V → ConfigEvent)
    (old new : List (String × V)) : List (String × V) × List ConfigEvent :=
  new.foldl (updStep ev) (old, [])

/-- The body of the per-map removal loop: a current key absent from the
new map is deleted and logged. -/
def rmStep {V : Type} (ev : String → ConfigEvent) (new : List (String × V))
    (acc : List (String × V) × List ConfigEvent) (k : String) :
    List (String × V) × List ConfigEvent :=
  if (List.lookup k new).isSome then acc
  else (mapErase acc.1 k, acc.2 ++ [ev k])

/-- The per-map removal loop over all current keys. -/
def mapApplyRemovals {V : Type} (ev : String → ConfigEvent)
    (cur new : List (String × V)) : List (String × V) × List ConfigEvent :=
  (cur.map Prod.fst).foldl (rmStep ev new) (cur, [])

/-- The diff-apply block of `monitorConfig` (`config.go` lines 93-153):
update each scalar field only when it changed, recompute the certificate
paths (and reload the certificate) only when one of the three path fields
changed, and run the update-then-remove loops on each of the three maps.
Returns the successor configuration and the ordered notifications. -/
def applyConfigDiff (old new : Config) : Config × List ConfigEvent :=
  let lh := if new.ListenHTTP != old.ListenHTTP
    then (new.ListenHTTP, [ConfigEvent.updatedListenHTTP new.ListenHTTP])
    else (old.ListenHTTP, [])
  let ls := if new.ListenHTTPS != old.ListenHTTPS
    then (new.ListenHTTPS, [ConfigEvent.updatedListenHTTPS new.ListenHTTPS])
    else (old.ListenHTTPS, [])
  let certChanged := new.CertDir != old.CertDir || new.CertFile != old.CertFile ||
    new.KeyFile != old.KeyFile
  let cert := if certChanged
    then ((new.CertDir, new.CertFile, new.KeyFile), [ConfigEvent.certPathsUpdated])
    else ((old.CertDir, old.CertFile, old.KeyFile), [])
  let ru := mapApplyUpdates ConfigEvent.updatedRoute old.Routes new.Routes
  let rr := mapApplyRemovals ConfigEvent.removedRoute ru.1 new.Routes
  let tu := mapApplyUpdates ConfigEvent.updatedTrustTarget old.TrustTarget new.TrustTarget
  let tr := mapApplyRemovals ConfigEvent.removedTrustTarget tu.1 new.TrustTarget
  let nu := mapApplyUpdates ConfigEvent.updatedNoHTTPSRedirect old.NoHTTPSRedirect new.NoHTTPSRedirect
  let nr := mapApplyRemovals ConfigEvent.removedNoHTTPSRedirect nu.1 new.NoHTTPSRedirect
  ({ ListenHTTP := lh.1
     ListenHTTPS := ls.1
     CertDir := cert.1.1
     CertFile := cert.1.2.1
     KeyFile := cert.1.2.2
     Routes := rr.1
     TrustTarget := tr.1
     NoHTTPSRedirect := nr.1 },
   lh.2 ++ ls.2 ++ cert.2 ++ ru.2 ++ rr.2 ++ tu.2 ++ tr.2 ++ nu.2 ++ nr.2)

/-! ### Concrete instances used to evaluate the embedded code -/

/-- A configuration whose host `"h"` has an explicit route but no
`trust_target` entry, while the wildcard's trust flag is `true`. -/
def cfgC1 : Config :=
  { ListenHTTP := ":80", ListenHTTPS := ":443", CertDir := "./certificate",
    CertFile := "certificate.pem", KeyFile := "key.pem",
    Routes := [("h", "https://x"), ("*", "https://y")],
    TrustTarget := [("*", true)],
    NoHTTPSRedirect := [] }

/-- A configuration with no routes at all (not even the wildcard). -/
def cfgNoRoutes : Config :=
  { ListenHTTP := ":80", ListenHTTPS := ":443", CertDir := "./certificate",
    CertFile := "certificate.pem", KeyFile := "key.pem",
    Routes := [], TrustTarget := [], NoHTTPSRedirect := [] }

/-- A configuration whose host `"h"` is routed to the two-character
target string `"ab"`. -/
def cfgShortTarget : Config :=
  { ListenHTTP := ":80", ListenHTTPS := ":443", CertDir := "./certificate",
    CertFile := "certificate.pem", KeyFile := "key.pem",
    Routes := [("h", "ab")], TrustTarget := [], NoHTTPSRedirect := [] }

/-- A TLS request for host `"h"`, bearing no conditional headers. -/
def reqStd : Request :=
  { host := "h", isTLS := true, requestURI := "/", urlString := "https://h/",
    ifNoneMatch := "", upgrade := "" }

/-- A parsed target URL whose host is an IPv4 literal with a port. -/
def urlIP : URL := { scheme := "https", host := "10.100.111.254:4444" }

/-- An inbound request as the `Director` override sees it. -/
def reqProxy : ProxyRequest :=
  { host := "main.example.com", remoteAddr := "203.0.113.9:51000",
    headers := [("Cookie", "sid=1")] }

/-- A cache entry as `ModifyResponse` stores it (quoted ETag). -/
def entC5 : CachedResponse :=
  { body := [104, 105], headers := [("Content-Type", "text/html")], statusCode := 200,
    cachedAt := 0, cacheDuration := defaultCacheTTL, etag := "\x22abc\x22" }

/-! ### Association-list and string lemmas -/

theorem lookup_cons {V : Type} (k : String) (p : String × V) (t : List (String × V)) :
    List.lookup k (p :: t) = if k = p.1 then some p.2 else List.lookup k t := by
  rcases p with ⟨a, b⟩
  by_cases h : k = a
  · simp [List.lookup, h]
  · have hb : (k == a) = false := by simp [h]
    simp [List.lookup, hb, h]

theorem lookup_mem {V : Type} {m : List (String × V)} {k : String} {v : V}
    (h : List.lookup k m = some v) : (k, v) ∈ m := by
  induction m with
  | nil => simp [List.lookup] at h
  | cons p t ih =>
    rw [lookup_cons] at h
    by_cases hk : k = p.1
    · rw [if_pos hk] at h
      obtain rfl : p.2 = v := by simpa using h
      simp [hk, Prod.ext_iff]
    · rw [if_neg hk] at h
      exact List.mem_cons_of_mem _ (ih h)

theorem lookup_of_mem_nodup {V : Type} {m : List (String × V)} {k : String} {v : V}
    (hnd : NodupKeys m) (h : (k, v) ∈ m) : List.lookup k m = some v := by
  induction m with
  | nil => simp at h
  | cons p t ih =>
    have hnd' : p.1 ∉ t.map Prod.fst ∧ (t.map Prod.fst).Nodup := by
      simpa [NodupKeys] using hnd
    rcases List.mem_cons.1 h with h | h
    · subst h
      simp [lookup_cons]
    · have hk : k ≠ p.1 := by
        rintro rfl
        exact hnd'.1 (by simpa using List.mem_map_of_mem Prod.fst h)
      rw [lookup_cons, if_neg hk]
      exact ih hnd'.2 h

theorem lookup_append_of_none {V : Type} {m : List (String × V)} (l2 : List (String × V))
    {k : String} (h : List.lookup k m = none) :
    List.lookup k (m ++ l2) = List.lookup k l2 := by
  induction m with
  | nil => rfl
  | cons p t ih =>
    rw [lookup_cons] at h
    by_cases hk : k = p.1
    · rw [if_pos hk] at h; exact absurd h (by simp)
    · rw [if_neg hk] at h
      rw [List.cons_append, lookup_cons, if_neg hk]
      exact ih h

theorem lookup_isSome_of_mem_keys {V : Type} {m : List (String × V)} {k : String}
    (h : k ∈ m.map Prod.fst) : (List.lookup k m).isSome := by
  induction m with
  | nil => simp at h
  | cons p t ih =>
    rw [lookup_cons]
    by_cases hk : k = p.1
    · simp [hk]
    · rw [if_neg hk]
      exact ih (by simpa [hk] using h)

theorem lookup_map_replace {V : Type} {m : List (String × V)} {k : String} (v : V)
    (h : (List.lookup k m).isSome) :
    List.lookup k (m.map (fun p => if p.1 = k then (k, v) else p)) = some v := by
  induction m with
  | nil => simp [List.lookup] at h
  | cons p t ih =>
    by_cases hk : p.1 = k
    · simp only [List.map_cons, if_pos hk]
      rw [lookup_cons]
      simp
    · have hcond : ¬ (k = p.1) := fun hh => hk hh.symm
      simp only [List.map_cons, if_neg hk]
      rw [lookup_cons, if_neg hcond]
      rw [lookup_cons, if_neg hcond] at h
      exact ih h

theorem lookup_mapSet_same {V : Type} (m : List (String × V)) (k : String) (v : V) :
    List.lookup k (mapSet m k v) = some v := by
  unfold mapSet
  split
  · exact lookup_map_replace v (by assumption)
  · next h =>
    have hn : List.lookup k m = none := by
      rcases hl : List.lookup k m with _ | w
      · rfl
      · rw [hl] at h; simp at h
    rw [lookup_append_of_none _ hn, lookup_cons]
    simp

/-! ### Header-map lemmas -/

theorem headerGet_set_same (h : List (String × String)) (k v : String) :
    headerGet (headerSet h k v) k = v := by
  unfold headerGet headerSet
  have hn : List.lookup k (h.filter (fun p => p.1 != k)) = none := by
    induction h with
    | nil => rfl
    | cons p t ih =>
      by_cases hpk : p.1 = k
      · have hb : (p.1 != k) = false := by simp [hpk]
        simp only [List.filter_cons, hb, if_false]
        exact ih
      · have hb : (p.1 != k) = true := by simp [hpk]
        have hcond : ¬ (k = p.1) := fun hh => hpk hh.symm
        simp only [List.filter_cons, hb, if_true]
        rw [lookup_cons, if_neg hcond]
        exact ih
  rw [lookup_append_of_none _ hn, lookup_cons]
  simp

theorem headerGet_set_diff (h : List (String × String)) (k v k' : String) (hne : k' ≠ k) :
    headerGet (headerSet h k v) k' = headerGet h k' := by
  unfold headerGet headerSet
  have key : List.lookup k' (h.filter (fun p => p.1 != k) ++ [(k, v)]) = List.lookup k' h := by
    induction h with
    | nil => simp [lookup_cons, hne]
    | cons p t ih =>
      by_cases hpk : p.1 = k
      · have hb : (p.1 != k) = false := by simp [hpk]
        have hcond : ¬ (k' = p.1) := by rw [hpk]; exact hne
        simp only [List.filter_cons, hb, if_false]
        rw [lookup_cons, if_neg hcond]
        exact ih
      · have hb : (p.1 != k) = true := by simp [hpk]
        simp only [List.filter_cons, hb, if_true, List.cons_append]
        rw [lookup_cons, lookup_cons]
        by_cases hk' : k' = p.1
        · rw [if_pos hk', if_pos hk']
        · rw [if_neg hk', if_neg hk']
          exact ih
  rw [key]

theorem headerGet_uaStep (h : List (String × String)) (k : String) (hk : k ≠ "User-Agent") :
    headerGet (if headerGet h "User-Agent" == "" then headerSet h "User-Agent" "GoLangProxy"
      else h) k = headerGet h k := by
  split
  · exact headerGet_set_diff _ _ _ _ hk
  · rfl

theorem createRouteDirector_spec (u : URL) (req : ProxyRequest) :
    createRouteDirector u req =
      { host := if isIPTarget u.hostname then req.host else u.host
        remoteAddr := req.remoteAddr
        headers :=
          if headerGet (headerSet (headerSet (headerSet req.headers
                "X-Forwarded-For" req.remoteAddr)
                "X-Forwarded-Host" (if isIPTarget u.hostname then req.host else u.host))
                "X-Forwarded-Proto" u.scheme) "User-Agent" == ""
          then headerSet (headerSet (headerSet (headerSet req.headers
                "X-Forwarded-For" req.remoteAddr)
                "X-Forwarded-Host" (if isIPTarget u.hostname then req.host else u.host))
                "X-Forwarded-Proto" u.scheme) "User-Agent" "GoLangProxy"
          else headerSet (headerSet (headerSet req.headers
                "X-Forwarded-For" req.remoteAddr)
                "X-Forwarded-Host" (if isIPTarget u.hostname then req.host else u.host))
                "X-Forwarded-Proto" u.scheme } := by
  unfold createRouteDirector
  by_cases hip : isIPTarget u.hostname <;> simp [hip]

/-! ### String-parsing lemmas -/

theorem wrap64_eq_self {x : Int} (h1 : -9223372036854775808 ≤ x)
    (h2 : x ≤ 9223372036854775807) : wrap64 x = x := by
  unfold wrap64
  omega

theorem not_goSpace_of_digit {c : Char} (h : c.isDigit = true) : isGoSpace c = false := by
  have hb : 48 ≤ c.toNat ∧ c.toNat ≤ 57 := by simpa [Char.isDigit] using h
  cases hs : isGoSpace c
  · rfl
  · exfalso
    unfold isGoSpace at hs
    simp only [Bool.or_eq_true, Bool.and_eq_true, decide_eq_true_eq] at hs
    omega

theorem dropWhile_eq_self_of_all {p : Char → Bool} {l : List Char}
    (h : ∀ c ∈ l, p c = false) : l.dropWhile p = l := by
  cases l with
  | nil => rfl
  | cons c cs => simp [List.dropWhile_cons, h c (List.mem_cons_self ..)]

theorem goTrimSpace_eq_self {l : List Char} (h : ∀ c ∈ l, isGoSpace c = false) :
    goTrimSpace l = l := by
  unfold goTrimSpace
  rw [dropWhile_eq_self_of_all h]
  rw [dropWhile_eq_self_of_all (fun c hc => h c (List.mem_reverse.1 hc))]
  exact List.reverse_reverse l

theorem atoi_digits {ds : List Char} (h0 : ds ≠ []) (hd : ds.all Char.isDigit = true)
    (hb : (digitsVal ds : Int) ≤ maxInt64) :
    atoi ds = some (digitsVal ds) := by
  rcases ds with _ | ⟨c, rest⟩
  · exact absurd rfl h0
  · have hc : c.isDigit = true := List.all_eq_true.1 hd c (List.mem_cons_self ..)
    have hcp : c ≠ '+' := fun h => by subst h; exact absurd hc (by decide)
    have hcm : c ≠ '-' := fun h => by subst h; exact absurd hc (by decide)
    simp [atoi, hcp, hcm, hd, hb]

theorem goSplit_single {sep : Char} {l : List Char} (h : ∀ c ∈ l, c ≠ sep) :
    goSplit sep l = [l] := by
  induction l with
  | nil => rfl
  | cons c cs ih =>
    have hc : c ≠ sep := h c (List.mem_cons_self ..)
    rw [goSplit, if_neg hc, ih (fun x hx => h x (List.mem_cons_of_mem _ hx))]

theorem findMaxAge_none {parts : List (List Char)}
    (h : ∀ p ∈ parts, goHasPfx maxAgePfx p = false) : findMaxAge parts = 0 := by
  induction parts with
  | nil => rfl
  | cons p ps ih =>
    have hcond : ¬ (goHasPfx maxAgePfx p = true) := by simp [h p (List.mem_cons_self ..)]
    rw [findMaxAge, if_neg hcond]
    exact ih (fun q hq => h q (List.mem_cons_of_mem _ hq))

theorem isPrefixOf_append (l t : List Char) : l.isPrefixOf (l ++ t) = true := by
  induction l with
  | nil => simp [List.isPrefixOf]
  | cons c cs ih => simp [List.isPrefixOf, ih]

/-! ### Config-diff lemmas -/

theorem foldl_updStep_eq {V : Type} [DecidableEq V] (ev : String → V → ConfigEvent) :
    ∀ (new : List (String × V)) (acc : List (String × V) × List ConfigEvent),
      (∀ p ∈ new, List.lookup p.1 acc.1 = some p.2) →
      List.foldl (updStep ev) acc new = acc := by
  intro new
  induction new with
  | nil => intro acc _; rfl
  | cons p t ih =>
    intro acc hp
    have h1 : List.lookup p.1 acc.1 = some p.2 := hp p (List.mem_cons_self ..)
    have hstep : updStep ev acc p = acc := by
      unfold updStep
      rw [h1]
      simp
    rw [List.foldl_cons, hstep]
    exact ih acc (fun q hq => hp q (List.mem_cons_of_mem _ hq))

theorem mapApplyUpdates_self {V : Type} [DecidableEq V] (ev : String → V → ConfigEvent)
    {m : List (String × V)} (hnd : NodupKeys m) : mapApplyUpdates ev m m = (m, []) := by
  unfold mapApplyUpdates
  exact foldl_updStep_eq ev m (m, []) (fun p hp => lookup_of_mem_nodup hnd hp)

theorem foldl_rmStep_eq {V : Type} (ev : String → ConfigEvent) (new : List (String × V)) :
    ∀ (ks : List String) (acc : List (String × V) × List ConfigEvent),
      (∀ k ∈ ks, (List.lookup k new).isSome) →
      List.foldl (rmStep ev new) acc ks = acc := by
  intro ks
  induction ks with
  | nil => intro acc _; rfl
  | cons k t ih =>
    intro acc hk
    have h1 : (List.lookup k new).isSome := hk k (List.mem_cons_self ..)
    have hstep : rmStep ev new acc k = acc := by
      unfold rmStep
      rw [if_pos h1]
    rw [List.foldl_cons, hstep]
    exact ih acc (fun q hq => hk q (List.mem_cons_of_mem _ hq))

theorem mapApplyRemovals_self {V : Type} (ev : String → ConfigEvent)
    (m : List (String × V)) : mapApplyRemovals ev m m = (m, []) := by
  unfold mapApplyRemovals
  exact foldl_rmStep_eq ev m (m.map Prod.fst) (m, [])
    (fun k hk => lookup_isSome_of_mem_keys hk)

/-! ### C1 — route and flag resolution -/

/-- C1 is refuted as stated: in `handler`, a host that is found in
`Routes` reads its flags at the host key only, with the Go zero value
`false` — it does not fall back to the wildcard.  Here `"h"` is routed
explicitly, has no `trust_target` entry, and the wildcard's trust is
`true`, yet resolution yields `skipVerify = false`. -/
theorem C1_counterexample :
    List.lookup "h" cfgC1.Routes = some "https://x" ∧
    List.lookup "h" cfgC1.TrustTarget = none ∧
    lookupD cfgC1.TrustTarget "*" = true ∧
    resolveRoute cfgC1 "h" = some ("https://x", false, false) := by decide

/-- C1 (amended): a routed host resolves to its own target with both
flags read at the host key under Go's zero-value-on-miss semantics; an
unrouted host falls back to the wildcard route and the wildcard's flags;
with no wildcard the request is answered 404 by `handler`.  The
independent per-map wildcard fallback holds only in the `golangproxy`
variant's `getConfigBool`. -/
theorem C1_resolution (cfg : Config) (host : String) :
    (∀ t, List.lookup host cfg.Routes = some t →
      resolveRoute cfg host =
        some (t, lookupD cfg.TrustTarget host, lookupD cfg.NoHTTPSRedirect host)) ∧
    (List.lookup host cfg.Routes = none →
      ∀ t, List.lookup "*" cfg.Routes = some t →
        resolveRoute cfg host =
          some (t, lookupD cfg.TrustTarget "*", lookupD cfg.NoHTTPSRedirect "*")) ∧
    (List.lookup host cfg.Routes = none → List.lookup "*" cfg.Routes = none →
      resolveRoute cfg host = none) ∧
    (∀ (m : List (String × Bool)) (v : Bool), List.lookup host m = some v →
      getConfigBool m host = v) ∧
    (∀ (m : List (String × Bool)), List.lookup host m = none →
      getConfigBool m host = lookupD m "*") ∧
    (∀ (req : Request) (cache : List (String × CachedResponse)) (lim : Limiter) (now : Int),
      req.host = host → (lim.allow now).1 = true → resolveRoute cfg host = none →
      (handler cfg req cache lim now).2.1 = Outcome.notFound) := by
  refine ⟨?_, ?_, ?_, ?_, ?_, ?_⟩
  · intro t ht; simp [resolveRoute, ht]
  · intro h0 t ht; simp [resolveRoute, h0, ht]
  · intro h0 h1; simp [resolveRoute, h0, h1]
  · intro m v h; simp [getConfigBool, h]
  · intro m h; simp [getConfigBool, h]
  · intro req cache lim now hh ha hr
    simp [handler, ha, hh, hr]

/-- C1 witness: `C1_resolution` evaluated on `cfgC1` at the routed host
`"h"`. -/
theorem C1_resolution_witness :
    resolveRoute cfgC1 "h" =
      some ("https://x", lookupD cfgC1.TrustTarget "h", lookupD cfgC1.NoHTTPSRedirect "h") :=
  (C1_resolution cfgC1 "h").1 "https://x" (by decide)

/-! ### C3 — order of the handler's phases -/

/-- C3 is refuted as stated: the claim puts the rate-limit check fourth,
after route resolution, the redirect check and the cache check.  In the
code the rate check runs first: a client whose bucket is exhausted (here:
the reachable limiter state after its 20-token burst was consumed at time
0) gets 429 on a trace that never resolved the route — observably, even a
request for a host that is not configured at all is answered 429, where
the claimed order would answer 404. -/
theorem C3_counterexample :
    (handler cfgNoRoutes reqStd [] (allowRun newLimiter (List.replicate 20 0)).2 0).1 =
      [Step.rate] ∧
    Step.resolve ∉
      (handler cfgNoRoutes reqStd [] (allowRun newLimiter (List.replicate 20 0)).2 0).1 ∧
    (handler cfgNoRoutes reqStd [] (allowRun newLimiter (List.replicate 20 0)).2 0).2.1 =
      Outcome.tooManyRequests := by decide

/-- C3 (amended): within every single request the handler's phases run in
the fixed sequential order rate-limit check, then route resolution, then
HTTPS-redirect check, then cache check, then dispatch — every execution
trace is a prefix of that sequence, always starts with the rate check, and
reaches the backend only through the full sequence. -/
theorem C3_order (cfg : Config) (req : Request) (cache : List (String × CachedResponse))
    (lim : Limiter) (now : Int) :
    (handler cfg req cache lim now).1 <+:
      [Step.rate, Step.resolve, Step.redirect, Step.cacheCheck, Step.dispatch] ∧
    (handler cfg req cache lim now).1.head? = some Step.rate ∧
    ((handler cfg req cache lim now).2.1.isDispatch = true →
      (handler cfg req cache lim now).1 =
        [Step.rate, Step.resolve, Step.redirect, Step.cacheCheck, Step.dispatch]) := by
  simp only [handler]
  repeat' split
  all_goals exact ⟨⟨_, rfl⟩, rfl, by simp [Outcome.isDispatch]⟩

/-- C3 witness: a dispatched request on `cfgC1` runs all five phases in
order, by `C3_order`. -/
theorem C3_order_witness :
    (handler cfgC1 reqStd [] newLimiter 0).1 =
      [Step.rate, Step.resolve, Step.redirect, Step.cacheCheck, Step.dispatch] :=
  (C3_order cfgC1 reqStd [] newLimiter 0).2.2 (by decide)

/-! ### C6 — token-bucket rate limiting -/

/-- C6: with refill rate 10 tokens/second and burst 20, twenty-one calls
at one instant yield exactly 20 allowed and 1 rejected; the rejected
request is answered 429 by `handler` without being dispatched to the
backend (and hence never reaches the response-writing path that populates
the cache); one second later ten further calls are all allowed. -/
theorem C6_rate_limit :
    rateLimit = 10 ∧ rateBurst = 20 ∧
    (allowRun newLimiter (List.replicate 21 0)).1.count true = 20 ∧
    (allowRun newLimiter (List.replicate 21 0)).1.count false = 1 ∧
    (handler cfgC1 reqStd [] (allowRun newLimiter (List.replicate 20 0)).2 0).2.1 =
      Outcome.tooManyRequests ∧
    ((handler cfgC1 reqStd [] (allowRun newLimiter (List.replicate 20 0)).2 0).2.1).isDispatch
      = false ∧
    (allowRun (allowRun newLimiter (List.replicate 21 0)).2
      (List.replicate 10 nsPerSecond)).1.count true = 10 := by decide

/-! ### C9 — the certificate watcher's change detection -/

/-- C9: the watcher keeps one `lastModTime` for two files.  After a
successful load with certificate modification time 1 and key modification
time 2, a tick on which neither file changed still triggers a reload —
the key's unchanged modification time never equals the stored
certificate modification time.  The tick condition is quiet only when
both files' modification times coincide with `lastModTime`, contradicting
the loop's own "reload certificate if either file has changed" contract. -/
theorem C9_spurious_reload :
    certTick 0 1 2 true = (true, 1) ∧
    certTickReloads (certTick 0 1 2 true).2 1 2 = true ∧
    (certTick (certTick 0 1 2 true).2 1 2 true).1 = true ∧
    certTickReloads 1 1 1 = false := by decide

/-! ### C10 — the unguarded `target[:5]` slice -/

/-- C10: `handler` is panic-free whenever every configured route target
has length at least 5, and a configuration routing `"h"` to the
two-character target `"ab"` makes the handler abort with a
slice-out-of-range panic before any response is written. -/
theorem C10_target_slice :
    (∀ (cfg : Config) (req : Request) (cache : List (String × CachedResponse))
        (lim : Limiter) (now : Int),
      (∀ p ∈ cfg.Routes, 5 ≤ p.2.length) →
      (handler cfg req cache lim now).2.1 ≠ Outcome.panicSliceOutOfRange) ∧
    (handler cfgShortTarget reqStd [] newLimiter 0).2.1 = Outcome.panicSliceOutOfRange := by
  constructor
  · intro cfg req cache lim now hlen
    have hres : ∀ t sv nr, resolveRoute cfg req.host = some (t, sv, nr) → 5 ≤ t.length := by
      intro t sv nr h
      rcases hmem : List.lookup req.host cfg.Routes with _ | target
      · rcases hmem2 : List.lookup "*" cfg.Routes with _ | target2
        · simp [resolveRoute, hmem, hmem2] at h
        · simp [resolveRoute, hmem, hmem2] at h
          obtain ⟨rfl, -, -⟩ := h
          exact hlen _ (lookup_mem hmem2)
      · simp [resolveRoute, hmem] at h
        obtain ⟨rfl, -, -⟩ := h
        exact hlen _ (lookup_mem hmem)
    by_cases ha : (lim.allow now).1
    · rcases hr : resolveRoute cfg req.host with _ | ⟨target, sv, nr⟩
      · simp [handler, ha, hr]
      · have h5 : 5 ≤ target.length := hres _ _ _ hr
        have hlt : ¬ target.length < 5 := by omega
        simp only [handler, ha, hr]
        simp only [hlt, if_false, Bool.not_true]
        repeat' split
        all_goals simp
    · simp [handler, ha]
  · decide

/-- C10 witness: on the default configuration (all targets at least five
characters) the handler does not panic, by `C10_target_slice`. -/
theorem C10_target_slice_witness :
    (handler generateDefaultConfig reqStd [] newLimiter 0).2.1 ≠
      Outcome.panicSliceOutOfRange :=
  C10_target_slice.1 generateDefaultConfig reqStd [] newLimiter 0 (by decide)

/-! ### C2 — the outbound-request rewrite -/

/-- C2 is refuted as stated: the claim says the outbound `Host` is the
original client Host unless the target is an IP literal, in which case the
target's own host:port is used.  The `Director` override does the
opposite: for the IPv4-literal target `10.100.111.254:4444` it keeps the
client's `main.example.com` instead of using the target's host:port. -/
theorem C2_counterexample :
    isIPTarget urlIP.hostname = true ∧
    (createRouteDirector urlIP reqProxy).host = "main.example.com" ∧
    (createRouteDirector urlIP reqProxy).host ≠ urlIP.host := by decide

/-- C2 (amended): the `Director` override keeps the client's `Host` when
the target hostname is an IP literal and rewrites it to the target's host
otherwise; it sets `X-Forwarded-For` to the client address,
`X-Forwarded-Host` to the (possibly rewritten) outbound Host and
`X-Forwarded-Proto` to the target scheme; every other inbound header
(except a defaulted empty `User-Agent`) is passed through unmodified. -/
theorem C2_director (u : URL) (req : ProxyRequest) :
    (createRouteDirector u req).host =
      (if isIPTarget u.hostname then req.host else u.host) ∧
    headerGet (createRouteDirector u req).headers "X-Forwarded-For" = req.remoteAddr ∧
    headerGet (createRouteDirector u req).headers "X-Forwarded-Host" =
      (if isIPTarget u.hostname then req.host else u.host) ∧
    headerGet (createRouteDirector u req).headers "X-Forwarded-Proto" = u.scheme ∧
    (∀ k, k ≠ "X-Forwarded-For" → k ≠ "X-Forwarded-Host" → k ≠ "X-Forwarded-Proto" →
      k ≠ "User-Agent" →
      headerGet (createRouteDirector u req).headers k = headerGet req.headers k) := by
  rw [createRouteDirector_spec]
  refine ⟨rfl, ?_, ?_, ?_, ?_⟩
  · rw [headerGet_uaStep _ _ (by decide), headerGet_set_diff _ _ _ _ (by decide),
      headerGet_set_diff _ _ _ _ (by decide), headerGet_set_same]
  · rw [headerGet_uaStep _ _ (by decide), headerGet_set_diff _ _ _ _ (by decide),
      headerGet_set_same]
  · rw [headerGet_uaStep _ _ (by decide), headerGet_set_same]
  · intro k h1 h2 h3 h4
    rw [headerGet_uaStep _ _ h4, headerGet_set_diff _ _ _ _ h3,
      headerGet_set_diff _ _ _ _ h2, headerGet_set_diff _ _ _ _ h1]

/-- C2 witness: the inbound `Cookie` header survives the rewrite, by
`C2_director`. -/
theorem C2_director_witness :
    headerGet (createRouteDirector urlIP reqProxy).headers "Cookie" =
      headerGet reqProxy.headers "Cookie" :=
  (C2_director urlIP reqProxy).2.2.2.2 "Cookie" (by decide) (by decide) (by decide) (by decide)

/-! ### C4 — cache TTL from Cache-Control -/

/-- C4 is refuted as stated: in the standard header
`Cache-Control: public, max-age=60` the `max-age` directive is present,
but because the comma-split field `" max-age=60"` keeps its leading space
and the prefix test trims nothing, the parse misses it and a response
carrying that header is stored with the 5-minute default instead of 60
seconds. -/
theorem C4_counterexample :
    cacheTTL "public, max-age=60".data = defaultCacheTTL ∧
    defaultCacheTTL ≠ 60 * nsPerSecond ∧
    (List.lookup "https://h/a.js" (modifyResponseCache (fun _ => "\x22g\x22") []
      { method := "GET", urlString := "https://h/a.js", statusCode := 200,
        headers := [("Content-Type", "application/javascript"),
                    ("Cache-Control", "public, max-age=60")],
        body := [1] } 0)).map CachedResponse.cacheDuration = some defaultCacheTTL := by decide

/-- C4 (amended): every cached entry stores TTL `cacheTTL` of its
`Cache-Control` header.  When a comma-separated field literally starts
with `max-age=` (no leading white-space trimmed) and its value parses as
a 64-bit integer, the parsed duration is the value times `10^9`
nanoseconds wrapped to `int64` (so seconds values of about `9.3·10^9` or
more wrap, possibly to a negative, immediately-stale TTL); the TTL equals
the max-age value exactly when that product is positive and in the
`int64` range.  When no field starts with `max-age=` — and also when the
value fails to parse (19-plus-digit overflow included) or the wrapped
duration is `0` — the 5-minute default is stored. -/
theorem C4_ttl :
    (∀ (genETag : List Nat → String) (cache : List (String × CachedResponse))
        (resp : BackendResp) (now : Int),
      shouldCache resp.method resp.statusCode (headerGet resp.headers "Content-Type") = true →
      (List.lookup resp.urlString (modifyResponseCache genETag cache resp now)).map
          CachedResponse.cacheDuration =
        some (cacheTTL (headerGet resp.headers "Cache-Control").data)) ∧
    (∀ ds : List Char, ds ≠ [] → ds.all Char.isDigit = true →
      (digitsVal ds : Int) ≤ maxInt64 →
      parseCacheControl (maxAgePfx ++ ds) =
        wrap64 ((digitsVal ds : Int) * nsPerSecond)) ∧
    (∀ ds : List Char, ds ≠ [] → ds.all Char.isDigit = true →
      1 ≤ digitsVal ds → (digitsVal ds : Int) * nsPerSecond ≤ maxInt64 →
      cacheTTL (maxAgePfx ++ ds) = (digitsVal ds : Int) * nsPerSecond) ∧
    (∀ l : List Char, (∀ p ∈ goSplit ',' l, goHasPfx maxAgePfx p = false) →
      cacheTTL l = defaultCacheTTL) := by
  have hparse : ∀ ds : List Char, ds ≠ [] → ds.all Char.isDigit = true →
      (digitsVal ds : Int) ≤ maxInt64 →
      parseCacheControl (maxAgePfx ++ ds) =
        wrap64 ((digitsVal ds : Int) * nsPerSecond) := by
    intro ds h0 hd hb
    have hnocomma : ∀ c ∈ maxAgePfx ++ ds, c ≠ ',' := by
      intro c hc
      rcases List.mem_append.1 hc with hc | hc
      · exact (by decide : ∀ c ∈ maxAgePfx, c ≠ ',') c hc
      · intro hcc
        subst hcc
        exact absurd (List.all_eq_true.1 hd _ hc) (by decide)
    have hsplit : goSplit ',' (maxAgePfx ++ ds) = [maxAgePfx ++ ds] := goSplit_single hnocomma
    have hne : maxAgePfx ++ ds ≠ [] := by simp [maxAgePfx]
    have hdrop : (maxAgePfx ++ ds).drop 8 = ds := by
      have h8 : maxAgePfx.length = 8 := by decide
      rw [← h8, List.drop_left]
    have hnospace : ∀ c ∈ ds, isGoSpace c = false := fun c hc =>
      not_goSpace_of_digit (List.all_eq_true.1 hd _ hc)
    have hpfx : goHasPfx maxAgePfx (maxAgePfx ++ ds) = true := by
      unfold goHasPfx
      exact isPrefixOf_append _ _
    unfold parseCacheControl
    rw [if_neg hne, hsplit, findMaxAge, if_pos hpfx, hdrop,
      goTrimSpace_eq_self hnospace, atoi_digits h0 hd hb]
    simp
  refine ⟨?_, hparse, ?_, ?_⟩
  · intro genETag cache resp now hsc
    unfold modifyResponseCache
    rw [if_pos hsc, lookup_mapSet_same]
    rfl
  · intro ds h0 hd h1 hb
    have hnn : (0 : Int) ≤ (digitsVal ds : Int) := Int.natCast_nonneg _
    have hds : (digitsVal ds : Int) ≤ maxInt64 := by
      have hstep : (digitsVal ds : Int) ≤ (digitsVal ds : Int) * nsPerSecond :=
        le_mul_of_one_le_right hnn (by norm_num [nsPerSecond])
      exact le_trans hstep hb
    have hpos : (0 : Int) < (digitsVal ds : Int) * nsPerSecond := by
      have h1' : (1 : Int) ≤ (digitsVal ds : Int) := by exact_mod_cast h1
      have : (0 : Int) < nsPerSecond := by norm_num [nsPerSecond]
      positivity
    have hw : wrap64 ((digitsVal ds : Int) * nsPerSecond) =
        (digitsVal ds : Int) * nsPerSecond := by
      apply wrap64_eq_self
      · omega
      · unfold maxInt64 at hb
        omega
    unfold cacheTTL
    rw [hparse ds h0 hd hds, hw, if_neg (by omega)]
  · intro l h
    unfold cacheTTL parseCacheControl
    by_cases h0 : l = []
    · rw [if_pos h0]
      rfl
    · rw [if_neg h0, findMaxAge_none h]
      rfl

/-- C4 witness: by `C4_ttl`, `max-age=60` yields a 60-second TTL, while
`max-age=10000000000` parses but its `10^19`-nanosecond duration wraps to
the negative `int64` value `-8446744073709551616` — the entry is stored
immediately stale, not kept for `10^19` nanoseconds. -/
theorem C4_ttl_witness :
    cacheTTL (maxAgePfx ++ "60".data) = 60 * nsPerSecond ∧
    parseCacheControl (maxAgePfx ++ "10000000000".data) = -8446744073709551616 := by
  constructor
  · rw [C4_ttl.2.2.1 "60".data (by decide) (by decide) (by decide) (by decide)]
    decide
  · rw [C4_ttl.2.1 "10000000000".data (by decide) (by decide) (by decide)]
    decide

/-! ### C5 — serving from the response cache -/

/-- C5: when the handler reaches the cache check (rate allowed, host
resolved, no panic, no redirect) and finds an unexpired entry for the
request's full URL, a request whose `If-None-Match` equals the stored
(non-empty, as every stored entry's quoted ETag is) ETag is answered 304
with no body; any other request receives the stored status, headers and
body verbatim; in both cases the backend is not contacted. -/
theorem C5_cache_hit (cfg : Config) (req : Request) (cache : List (String × CachedResponse))
    (lim : Limiter) (now : Int) (target : String) (sv nr : Bool) (entry : CachedResponse)
    (ha : (lim.allow now).1 = true)
    (hr : resolveRoute cfg req.host = some (target, sv, nr))
    (hlen : ¬ target.length < 5)
    (hnored : (!req.isTLS && (target.data.take 5 == "https".data) && !nr) = false)
    (hc : List.lookup req.urlString cache = some entry)
    (hfresh : now - entry.cachedAt < entry.cacheDuration)
    (hetag : entry.etag ≠ "") :
    (req.ifNoneMatch = entry.etag →
      (handler cfg req cache lim now).2.1 = Outcome.notModified) ∧
    (req.ifNoneMatch ≠ entry.etag →
      (handler cfg req cache lim now).2.1 =
        Outcome.cachedReply entry.statusCode entry.headers entry.body) ∧
    (handler cfg req cache lim now).2.1.isDispatch = false := by
  have hmain : (handler cfg req cache lim now).2.1 =
      (if req.ifNoneMatch ≠ "" && req.ifNoneMatch == entry.etag then Outcome.notModified
       else Outcome.cachedReply entry.statusCode entry.headers entry.body) := by
    simp only [handler, ha, hr, hc]
    simp [hlen, hnored, hfresh]
    split <;> rfl
  refine ⟨?_, ?_, ?_⟩
  · intro heq
    rw [hmain, if_pos]
    rw [heq]
    simp [hetag]
  · intro hne
    rw [hmain, if_neg]
    simp [hne]
  · rw [hmain]
    split <;> simp [Outcome.isDispatch]

/-- C5 witness: a conditional request matching the stored ETag of a fresh
entry for `https://h/` is answered 304, by `C5_cache_hit`. -/
theorem C5_cache_hit_witness :
    (handler cfgC1 { reqStd with ifNoneMatch := "\x22abc\x22" }
      [("https://h/", entC5)] newLimiter 5).2.1 = Outcome.notModified :=
  (C5_cache_hit cfgC1 _ _ newLimiter 5 "https://x" false false entC5
    (by decide) (by decide) (by decide) (by decide) (by decide) (by decide)
    (by decide)).1 rfl

/-! ### C7 — fail-safe certificate loading -/

/-- C7: `loadCertificate` returns an error and leaves the stored
certificate untouched whenever the certificate file is unreadable, the
key file is unreadable, or the pair fails to parse; the stored reference
is replaced (in the single atomic locked update) exactly when the pair
parses successfully. -/
theorem C7_load_certificate (parse : List Nat → List Nat → Option TLSCert)
    (fs : CertFS) (stored : Option TLSCert) :
    (∀ e, (loadCertificate parse fs stored).1 = Except.error e →
      (loadCertificate parse fs stored).2 = stored) ∧
    (∀ cb kb c, fs.certFile = some cb → fs.keyFile = some kb → parse cb kb = some c →
      loadCertificate parse fs stored = (Except.ok (), some c)) ∧
    (fs.certFile = none →
      loadCertificate parse fs stored = (Except.error CertError.unreadableCert, stored)) ∧
    (∀ cb, fs.certFile = some cb → fs.keyFile = none →
      loadCertificate parse fs stored = (Except.error CertError.unreadableKey, stored)) ∧
    (∀ cb kb, fs.certFile = some cb → fs.keyFile = some kb → parse cb kb = none →
      loadCertificate parse fs stored = (Except.error CertError.malformed, stored)) := by
  obtain ⟨cf, kf⟩ := fs
  refine ⟨?_, ?_, ?_, ?_, ?_⟩
  · intro e he
    rcases cf with _ | cb
    · rfl
    rcases kf with _ | kb
    · rfl
    rcases hp : parse cb kb with _ | c
    · simp [loadCertificate, hp]
    · simp [loadCertificate, hp] at he
  · intro cb kb c hcb hkb hp
    subst hcb; subst hkb
    simp [loadCertificate, hp]
  · intro h; subst h; rfl
  · intro cb hcb h; subst hcb; subst h; rfl
  · intro cb kb hcb hkb hp; subst hcb; subst hkb; simp [loadCertificate, hp]

/-- C7 witness: a readable, parsable pair replaces the (empty) store, by
`C7_load_certificate`. -/
theorem C7_load_certificate_witness :
    loadCertificate (fun c k => some { certPEM := c, keyPEM := k })
      { certFile := some [1], keyFile := some [2] } none =
      (Except.ok (), some { certPEM := [1], keyPEM := [2] }) :=
  (C7_load_certificate _ _ _).2.1 [1] [2] _ rfl rfl rfl

/-! ### C8 — idempotence of the configuration reload -/

/-- C8: applying the reload diff of a configuration against an identical
parsed configuration leaves every field and every map entry unchanged and
emits no "Updated"/"Removed" notification (the event list is empty). -/
theorem C8_reload_idempotent (c : Config) (h1 : NodupKeys c.Routes)
    (h2 : NodupKeys c.TrustTarget) (h3 : NodupKeys c.NoHTTPSRedirect) :
    applyConfigDiff c c = (c, []) := by
  simp [applyConfigDiff, mapApplyUpdates_self _ h1, mapApplyUpdates_self _ h2,
    mapApplyUpdates_self _ h3, mapApplyRemovals_self]

/-- C8 witness: reloading the default configuration unchanged is a no-op,
by `C8_reload_idempotent`. -/
theorem C8_reload_idempotent_witness :
    applyConfigDiff generateDefaultConfig generateDefaultConfig =
      (generateDefaultConfig, []) :=
  C8_reload_idempotent generateDefaultConfig (by unfold NodupKeys; decide)
    (by unfold NodupKeys; decide) (by unfold NodupKeys; decide)

end GoLangProxy
